import Mathlib

/-!
Verification of the cutting-parameter calculation engine of
`speeds_and_feeds.py` (a CNC speeds-and-feeds chart generator).

Shallow embedding conventions:
* All magnitudes are rationals in fixed units: lengths in inch, surface
  speeds (`SFM`) in ft/min, spindle speeds in rev/min, feed rates in
  inch/min, power in hp, specific cutting power in hp/(inch³/min), and
  material-removal rate in inch³/min.  The pint unit registry in the
  source only ever contributes the ft→inch factor 12 on the paths
  modelled here (the `revolution = 6.2831853 rad` definition cancels in
  every conversion the script performs), so units are pre-resolved.
* The source's float arithmetic is modelled as exact rational
  arithmetic.  `math.pi` is the IEEE-754 double closest to π; its exact
  rational value is `mathPi` below.
* In ℚ, division by zero yields 0 where numpy float division yields
  `inf`; the zero-depth sample produced by the source's depth grid is
  therefore identified by its axial component being 0, not by a
  non-finite magnitude.
-/

/-- Exact rational value of the IEEE-754 double `math.pi`
(`from math import pi`, source line 5): 884279719003555 · 2⁻⁴⁸. -/
def mathPi : ℚ := 884279719003555 / 281474976710656

/-- Source line 20: maximum axial DOC on the X axis as a multiple of tool
diameter. -/
def MAX_DOC_AXIAL : ℚ := 1.5

/-- Source line 121: safety-margin factor applied to rated machine power. -/
def machine_horsepower_multiplier : ℚ := 0.5

/-- Source line 128: fraction of motor power actually transmitted to the
tool. -/
def machine_efficiency : ℚ := 0.75

/-- A tool record (source lines 23–69): diameter in inch, tooth count, and
the tool material class as the literal string used in the tables. -/
structure Tool where
  diameter : ℚ
  tooth_count : ℕ
  material : String
deriving DecidableEq

/-- A work-material record (source lines 72–115): base surface speed in
ft/min and specific cutting power in hp/(inch³/min).  The plotting-only
fields (color, linestyle, linewidth) are omitted. -/
structure MaterialProps where
  SFM : ℚ
  unit_power : ℚ
deriving DecidableEq

/-- A machine's spindle-speed capability (source lines 130–143): either a
continuous envelope with ceiling `vari_speed_max` (the `vari_speed_max`
key), or a discrete stepped gearbox (the `speeds` key).  The source's
`min` over the speed list raises on an empty list, and both configured
machines have nonempty lists, so nonemptiness is carried in the variant. -/
inductive SpeedCapability where
  | discrete (speeds : List ℚ) (nonempty : speeds ≠ [])
  | continuous (vari_speed_max : ℚ)

/-- A machine record (source lines 130–143): rated power in hp, maximum
feed rate in inch/min, and the spindle-speed capability. -/
structure Machine where
  horsepower : ℚ
  feed_max : ℚ
  capability : SpeedCapability

/-- Python's `min(best :: rest, key := key)` (source line 151): fold over
the list keeping the current best, replacing it only when the new key is
strictly smaller, so the first minimizer wins ties. -/
def pyMinKey (key : ℚ → ℚ) (best : ℚ) : List ℚ → ℚ
  | [] => best
  | y :: ys => pyMinKey key (if key y < key best then y else best) ys

/-- Source lines 145–156, `closest_machine_speed`: for a given ideal
spindle speed, return the nearest physically possible one.  Discrete
machines take the list element minimizing `|x - speed|` (Python `min`
with first-wins ties); continuous machines clamp down to the ceiling. -/
def closest_machine_speed (speed : ℚ) (machine : Machine) : ℚ :=
  match machine.capability with
  | .discrete [] h => absurd rfl h
  | .discrete (x :: xs) _ => pyMinKey (fun y => |y - speed|) x xs
  | .continuous vmax => if speed > vmax then vmax else speed

/-- `np.arange start stop step` (exact-rational model): the values
`start + i·step` for `i < ⌈(stop - start)/step⌉`. -/
def arange (start stop step : ℚ) : List ℚ :=
  (List.range (Int.toNat ⌈(stop - start) / step⌉)).map
    (fun i : ℕ => start + (i : ℚ) * step)

/-- Source line 167: the axial depth-of-cut sample grid
`np.arange(0.0, MAX_DOC_AXIAL * diameter + 0.01, 0.01)` in inch.
Note the grid starts at 0.0. -/
def doc_axial (diameter : ℚ) : List ℚ :=
  arange 0 (MAX_DOC_AXIAL * diameter + 0.01) 0.01

/-- Source line 200: radial depth-of-cut `MRR / feed / doc_axial` at one
axial-depth sample. -/
def doc_radial (MRR feed axial : ℚ) : ℚ :=
  MRR / feed / axial

/-- Source line 201: stepover percentage
`100 * (doc_radial / diameter)` at one axial-depth sample. -/
def stepover (MRR feed diameter axial : ℚ) : ℚ :=
  100 * (doc_radial MRR feed axial / diameter)

/-- Source lines 183–189: carbide tools are credited with 2.5× the surface
speed of HSS tools (this file's hard-coded multiplier is 2.5). -/
def effective_SFM (tool : Tool) (SFM : ℚ) : ℚ :=
  if tool.material = "Carbide" then SFM * 2.5 else SFM

/-- Source line 191: ideal spindle speed in rev/min,
`SFM / (pi * diameter / rev)`; pint's ft→inch conversion contributes the
factor 12, so the magnitude is `SFM·12 / (pi·diameter)`. -/
def ideal_speed (SFM diameter : ℚ) : ℚ :=
  SFM * 12 / (mathPi * diameter)

/-- The derived cutting result for one (machine, tool, material) triple:
achieved spindle speed (rev/min), achieved feed rate (inch/min), target
spindle power (hp), material-removal-rate budget (inch³/min), and the
(axial-DOC, stepover-%) sample sequence. -/
structure CuttingResult where
  speed : ℚ
  feed : ℚ
  target_spindle_horsepower : ℚ
  MRR : ℚ
  samples : List (ℚ × ℚ)

/-- Source lines 180–201, the per-material loop body of the calculator:
scale the surface speed for carbide, derive the ideal spindle speed,
resolve it against the machine envelope, derive the chip-load feed
(chip-load constant 0.005, line 194), clamp the feed to the machine
maximum, derive the power-budgeted removal rate, and map the axial-depth
grid to (axial-DOC, stepover-%) samples. -/
def cutting_result (machine : Machine) (tool : Tool) (mat : MaterialProps) :
    CuttingResult :=
  let SFM := effective_SFM tool mat.SFM
  let speed := closest_machine_speed (ideal_speed SFM tool.diameter) machine
  let feed0 := 0.005 * tool.diameter * speed * (tool.tooth_count : ℚ)
  let feed := if feed0 > machine.feed_max then machine.feed_max else feed0
  let thp := machine.horsepower * machine_horsepower_multiplier *
    machine_efficiency
  let mrr := thp / mat.unit_power
  { speed := speed
    feed := feed
    target_spindle_horsepower := thp
    MRR := mrr
    samples := (doc_axial tool.diameter).map
      (fun a => (a, stepover mrr feed tool.diameter a)) }

/-- Source lines 131–136: the Sharp LMV CNC Mill (continuous envelope,
ceiling 3000 rev/min). -/
def sharp_lmv : Machine :=
  { horsepower := 3
    feed_max := 60
    capability := .continuous 3000 }

/-- Source lines 137–142: the Bridgeport J-Head Mill (discrete stepped
gearbox). -/
def bridgeport : Machine :=
  { horsepower := 1
    feed_max := 30
    capability := .discrete [80, 135, 210, 325, 660, 1115, 1750, 2720]
      (List.cons_ne_nil _ _) }

/-- Source lines 29–33: the 3/4-inch four-flute HSS/Cobalt end mill. -/
def tool_075 : Tool :=
  { diameter := 3 / 4
    tooth_count := 4
    material := "HSS/Cobalt" }

/-- Source lines 73–79: Aluminum (SFM 300 ft/min, specific cutting power
0.4 hp/(inch³/min)). -/
def aluminum : MaterialProps :=
  { SFM := 300
    unit_power := 0.4 }

/-! ## Properties of the Python `min`-with-key fold -/

/-- The fold result is the base or one of the scanned elements. -/
theorem pyMinKey_mem (key : ℚ → ℚ) (b : ℚ) (l : List ℚ) :
    pyMinKey key b l = b ∨ pyMinKey key b l ∈ l := by
  induction l generalizing b with
  | nil => exact Or.inl rfl
  | cons y ys ih =>
    simp only [pyMinKey]
    rcases ih (if key y < key b then y else b) with h | h
    · rw [h]
      split
      · exact Or.inr (List.mem_cons_self _ _)
      · exact Or.inl rfl
    · exact Or.inr (List.mem_cons_of_mem _ h)

/-- The fold result's key never exceeds the base's key. -/
theorem pyMinKey_le_base (key : ℚ → ℚ) (b : ℚ) (l : List ℚ) :
    key (pyMinKey key b l) ≤ key b := by
  induction l generalizing b with
  | nil => exact le_refl _
  | cons y ys ih =>
    simp only [pyMinKey]
    refine le_trans (ih _) ?_
    rcases lt_or_le (key y) (key b) with h | h
    · rw [if_pos h]; exact le_of_lt h
    · rw [if_neg (not_lt.mpr h)]

/-- The fold result's key never exceeds the key of any scanned element. -/
theorem pyMinKey_le (key : ℚ → ℚ) (b : ℚ) (l : List ℚ) :
    ∀ y ∈ l, key (pyMinKey key b l) ≤ key y := by
  induction l generalizing b with
  | nil => intro y hy; cases hy
  | cons z zs ih =>
    intro y hy
    simp only [pyMinKey]
    rcases List.mem_cons.mp hy with rfl | hy2
    · refine le_trans (pyMinKey_le_base key _ zs) ?_
      rcases lt_or_le (key y) (key b) with h | h
      · rw [if_pos h]
      · rw [if_neg (not_lt.mpr h)]; exact h
    · exact ih _ y hy2

/-- The fold keeps the base on ties: the result is the base itself unless
some scanned element has a strictly smaller key. -/
theorem pyMinKey_eq_or_lt (key : ℚ → ℚ) (b : ℚ) (l : List ℚ) :
    pyMinKey key b l = b ∨ key (pyMinKey key b l) < key b := by
  induction l generalizing b with
  | nil => exact Or.inl rfl
  | cons y ys ih =>
    simp only [pyMinKey]
    rcases lt_or_le (key y) (key b) with h | h
    · rw [if_pos h]
      exact Or.inr (lt_of_le_of_lt (pyMinKey_le_base key y ys) h)
    · rw [if_neg (not_lt.mpr h)]
      exact ih b

/-- First-wins tie-break, stated through `List.find?`: the fold result is
the FIRST element of the full list whose key is minimal. -/
theorem pyMinKey_find (key : ℚ → ℚ) (b : ℚ) (l : List ℚ) :
    (b :: l).find? (fun y => decide (key y ≤ key (pyMinKey key b l))) =
      some (pyMinKey key b l) := by
  induction l generalizing b with
  | nil => simp [pyMinKey, List.find?]
  | cons y ys ih =>
    simp only [pyMinKey]
    rcases lt_or_le (key y) (key b) with h | h
    · simp only [if_pos h]
      have hr : key (pyMinKey key y ys) < key b :=
        lt_of_le_of_lt (pyMinKey_le_base key y ys) h
      rw [List.find?_cons_of_neg _ (by simpa using not_le.mpr hr)]
      exact ih y
    · simp only [if_neg (not_lt.mpr h)]
      rcases pyMinKey_eq_or_lt key b ys with he | hlt
      · rw [he]
        rw [List.find?_cons_of_pos _ (by simp)]
      · have hb : ¬ key b ≤ key (pyMinKey key b ys) := not_le.mpr hlt
        have hy : ¬ key y ≤ key (pyMinKey key b ys) :=
          fun hc => hb (le_trans h hc)
        rw [List.find?_cons_of_neg _ (by simpa using hb),
          List.find?_cons_of_neg _ (by simpa using hy)]
        have h2 := ih b
        rwa [List.find?_cons_of_neg _ (by simpa using hb)] at h2


/-! ## Concrete evaluation helpers -/

/-- Mapping `Prod.fst` over a graph-style map recovers the input list. -/
theorem map_fst_graph (g : ℚ → ℚ) (l : List ℚ) :
    (l.map (fun a => (a, g a))).map Prod.fst = l := by
  induction l with
  | nil => rfl
  | cons a as ih => simp [ih]

/-- The ideal spindle speed of a 3/4-inch tool at 300 ft/min surface
speed, as an explicit rational (≈ 1527.887 rev/min). -/
theorem ideal_speed_val :
    ideal_speed 300 (3 / 4) = 1351079888211148800 / 884279719003555 := by
  unfold ideal_speed mathPi
  norm_num

/-- The 3/4-inch tool is HSS/Cobalt, so its surface-speed multiplier is 1. -/
theorem effective_SFM_tool_075 (s : ℚ) : effective_SFM tool_075 s = s := by
  simp [effective_SFM, tool_075]

/-- On the Sharp LMV the ideal speed of the 3/4-inch tool on Aluminum is
below the 3000 rev/min ceiling, so the envelope leaves it unchanged. -/
theorem sharp_closest :
    closest_machine_speed
      (ideal_speed (effective_SFM tool_075 aluminum.SFM) tool_075.diameter)
      sharp_lmv = ideal_speed 300 (3 / 4) := by
  rw [effective_SFM_tool_075]
  show (if ideal_speed 300 (3 / 4) > (3000 : ℚ) then (3000 : ℚ)
    else ideal_speed 300 (3 / 4)) = ideal_speed 300 (3 / 4)
  rw [if_neg (by rw [ideal_speed_val]; norm_num)]

/-- Achieved speed on the Sharp LMV equals the ideal speed. -/
theorem sharp_speed_eq :
    (cutting_result sharp_lmv tool_075 aluminum).speed =
      ideal_speed 300 (3 / 4) := by
  simp only [cutting_result]
  exact sharp_closest

/-- Achieved feed on the Sharp LMV: the chip-load feed is below the
60 inch/min machine maximum, so the clamp leaves it unchanged. -/
theorem sharp_feed_eq :
    (cutting_result sharp_lmv tool_075 aluminum).feed =
      0.005 * (3 / 4) * ideal_speed 300 (3 / 4) * 4 := by
  have hle : ¬ (0.005 * tool_075.diameter * ideal_speed 300 (3 / 4) *
      (tool_075.tooth_count : ℚ) > sharp_lmv.feed_max) := by
    show ¬ (0.005 * (3 / 4 : ℚ) * ideal_speed 300 (3 / 4) *
      ((4 : ℕ) : ℚ) > 60)
    rw [ideal_speed_val]
    push_cast
    norm_num
  simp only [cutting_result, sharp_closest]
  rw [if_neg hle]
  show 0.005 * (3 / 4 : ℚ) * ideal_speed 300 (3 / 4) * ((4 : ℕ) : ℚ) = _
  push_cast
  ring

/-- Removal-rate budget on the Sharp LMV cutting Aluminum:
3 hp × 0.5 × 0.75 / 0.4 = 45/16 inch³/min. -/
theorem sharp_mrr_eq :
    (cutting_result sharp_lmv tool_075 aluminum).MRR = 45 / 16 := by
  show (3 : ℚ) * machine_horsepower_multiplier * machine_efficiency /
    (0.4 : ℚ) = 45 / 16
  unfold machine_horsepower_multiplier machine_efficiency
  norm_num

/-- The Bridgeport gearbox resolves the ≈1528 rev/min ideal speed to
1750 rev/min. -/
theorem bridgeport_closest :
    closest_machine_speed (ideal_speed 300 (3 / 4)) bridgeport = 1750 := by
  rw [ideal_speed_val]
  show pyMinKey
      (fun y => |y - (1351079888211148800 / 884279719003555 : ℚ)|) 80
      [135, 210, 325, 660, 1115, 1750, 2720] = 1750
  simp only [pyMinKey]
  norm_num [← sq_lt_sq]

/-- Achieved speed on the Bridgeport for the 3/4-inch tool on Aluminum. -/
theorem bp_speed_eq :
    (cutting_result bridgeport tool_075 aluminum).speed = 1750 := by
  simp only [cutting_result]
  rw [effective_SFM_tool_075]
  exact bridgeport_closest

/-- The depth grid for the 3/4-inch tool has 114 samples. -/
theorem doc_axial_len_075 :
    Int.toNat ⌈(MAX_DOC_AXIAL * (3 / 4) + 0.01 - 0) / (0.01 : ℚ)⌉ = 114 := by
  have h : ⌈(MAX_DOC_AXIAL * (3 / 4) + 0.01 - 0) / (0.01 : ℚ)⌉ = (114 : ℤ) := by
    unfold MAX_DOC_AXIAL
    rw [Int.ceil_eq_iff]
    norm_num
  rw [h]
  rfl

/-- The depth grid for the 3/4-inch tool contains the zero depth (its
first sample). -/
theorem zero_mem_doc_axial : (0 : ℚ) ∈ doc_axial (3 / 4) := by
  unfold doc_axial arange
  rw [doc_axial_len_075]
  exact List.mem_map.mpr
    ⟨0, List.mem_range.mpr (show 0 < 114 by norm_num), by norm_num⟩

/-- The depth grid for the 3/4-inch tool contains the depth 0.01 inch. -/
theorem point01_mem_doc_axial : (0.01 : ℚ) ∈ doc_axial (3 / 4) := by
  unfold doc_axial arange
  rw [doc_axial_len_075]
  exact List.mem_map.mpr
    ⟨1, List.mem_range.mpr (show 1 < 114 by norm_num), by norm_num⟩

/-- Every depth of the grid yields a sample in the output sequence. -/
theorem sample_mem (machine : Machine) (tool : Tool) (mat : MaterialProps)
    (a : ℚ) (ha : a ∈ doc_axial tool.diameter) :
    (a, stepover (cutting_result machine tool mat).MRR
        (cutting_result machine tool mat).feed tool.diameter a) ∈
      (cutting_result machine tool mat).samples := by
  simp only [cutting_result]
  exact List.mem_map.mpr ⟨a, ha, rfl⟩

/-! ## Claim theorems -/

/-- C1: the spec claims zero or negative axial-depth samples never appear
in a `CuttingResult`'s stepover sequence.  The code does the opposite:
the stepover sequence is index-for-index the UNfiltered depth grid, that
grid starts at 0.0, and so the emitted sequence contains a sample at
axial depth 0 (where the source's float division produces infinity). -/
theorem c1_zero_depth_sample_emitted :
    (∀ (machine : Machine) (tool : Tool) (mat : MaterialProps),
      (cutting_result machine tool mat).samples.map Prod.fst =
        doc_axial tool.diameter) ∧
    ∃ p ∈ (cutting_result sharp_lmv tool_075 aluminum).samples,
      p.1 = 0 := by
  constructor
  · intro machine tool mat
    simp only [cutting_result]
    exact map_fst_graph _ _
  · exact ⟨_, sample_mem sharp_lmv tool_075 aluminum 0 zero_mem_doc_axial,
      rfl⟩

/-- C2: for the 3/4-inch four-flute HSS tool (multiplier 1.0) on Aluminum
(300 ft/min) and the continuous 3000 rev/min machine, the ideal speed is
300·12/(π·0.75) ≈ 1528 rev/min, below the ceiling, so the achieved speed
equals the ideal speed, and the achieved feed rate is
speed·0.75·4·0.005 ≈ 22.9 inch/min. -/
theorem c2_sharp_scenario :
    (cutting_result sharp_lmv tool_075 aluminum).speed =
      ideal_speed 300 (3 / 4) ∧
    ideal_speed 300 (3 / 4) < 3000 ∧
    |(cutting_result sharp_lmv tool_075 aluminum).speed - 1528| < 1 ∧
    (cutting_result sharp_lmv tool_075 aluminum).feed =
      (cutting_result sharp_lmv tool_075 aluminum).speed *
        (3 / 4) * 4 * 0.005 ∧
    |(cutting_result sharp_lmv tool_075 aluminum).feed - 22.9| < 0.1 := by
  refine ⟨sharp_speed_eq, ?_, ?_, ?_, ?_⟩
  · rw [ideal_speed_val]
    norm_num
  · rw [sharp_speed_eq, ideal_speed_val, abs_sub_lt_iff]
    norm_num
  · rw [sharp_feed_eq, sharp_speed_eq]
    ring
  · rw [sharp_feed_eq, ideal_speed_val, abs_sub_lt_iff]
    norm_num

/-- C3: for every machine with a (nonempty) discrete speed set, the
resolved speed is an element of the set, no element of the set is
strictly closer to the ideal speed, and ties go to the element appearing
first in the set's order (the resolved speed is the first minimizer that
`List.find?` encounters); for ideal speed ≈ 1528 rev/min and the
Bridgeport set the resolved speed is 1750 rev/min. -/
theorem c3_discrete_nearest :
    (∀ (s x : ℚ) (xs : List ℚ) (machine : Machine)
      (h : x :: xs ≠ ([] : List ℚ)),
      machine.capability = SpeedCapability.discrete (x :: xs) h →
      closest_machine_speed s machine ∈ x :: xs ∧
      (∀ y ∈ x :: xs, |closest_machine_speed s machine - s| ≤ |y - s|) ∧
      (x :: xs).find?
        (fun y => decide (|y - s| ≤ |closest_machine_speed s machine - s|)) =
        some (closest_machine_speed s machine)) ∧
    closest_machine_speed (ideal_speed 300 (3 / 4)) bridgeport = 1750 := by
  constructor
  · intro s x xs machine h hcap
    obtain ⟨hp, fm, cap⟩ := machine
    dsimp only at hcap
    subst hcap
    simp only [closest_machine_speed]
    refine ⟨?_, ?_, ?_⟩
    · rcases pyMinKey_mem (fun y => |y - s|) x xs with he | hm
      · rw [he]
        exact List.mem_cons_self _ _
      · exact List.mem_cons_of_mem _ hm
    · intro y hy
      rcases List.mem_cons.mp hy with rfl | hy2
      · exact pyMinKey_le_base (fun z => |z - s|) y xs
      · exact pyMinKey_le (fun z => |z - s|) x xs y hy2
    · exact pyMinKey_find (fun y => |y - s|) x xs
  · exact bridgeport_closest

/-- C3 witness: the general statement applied to the Bridgeport machine
at ideal speed 1 rev/min. -/
theorem c3_discrete_nearest_witness :
    closest_machine_speed 1 bridgeport ∈
      (80 : ℚ) :: [135, 210, 325, 660, 1115, 1750, 2720] :=
  (c3_discrete_nearest.1 1 80 [135, 210, 325, 660, 1115, 1750, 2720]
    bridgeport (List.cons_ne_nil _ _) rfl).1

/-- C4: for every machine with a continuous envelope, the resolved
spindle speed never exceeds the ceiling, equals the ceiling when the
ideal speed exceeds it, and equals the ideal speed unchanged whenever
the ideal speed is at or below the ceiling. -/
theorem c4_continuous_clamp :
    ∀ (s vmax : ℚ) (machine : Machine),
      machine.capability = SpeedCapability.continuous vmax →
      closest_machine_speed s machine ≤ vmax ∧
      (vmax < s → closest_machine_speed s machine = vmax) ∧
      (s ≤ vmax → closest_machine_speed s machine = s) := by
  intro s vmax machine hcap
  obtain ⟨hp, fm, cap⟩ := machine
  dsimp only at hcap
  subst hcap
  simp only [closest_machine_speed]
  rcases le_or_lt s vmax with h | h
  · rw [if_neg (not_lt.mpr h)]
    exact ⟨h, fun hc => absurd hc (not_lt.mpr h), fun _ => rfl⟩
  · rw [if_pos h]
    exact ⟨le_refl _, fun _ => rfl, fun hc => absurd h (not_lt.mpr hc)⟩

/-- C4 witness: the Sharp LMV (ceiling 3000) leaves an ideal speed of
2 rev/min unchanged. -/
theorem c4_continuous_clamp_witness :
    closest_machine_speed 2 sharp_lmv ≤ 3000 ∧
      closest_machine_speed 2 sharp_lmv = 2 :=
  ⟨(c4_continuous_clamp 2 3000 sharp_lmv rfl).1,
    (c4_continuous_clamp 2 3000 sharp_lmv rfl).2.2 (by norm_num)⟩

/-- C5: for every calculator input, the achieved feed rate in the
`CuttingResult` is at most the machine's maximum feed rate: the
chip-load-derived feed is clamped down to the machine maximum when it
would exceed it, and is otherwise unchanged. -/
theorem c5_feed_within_machine_max :
    ∀ (machine : Machine) (tool : Tool) (mat : MaterialProps),
      (cutting_result machine tool mat).feed ≤ machine.feed_max := by
  intro machine tool mat
  simp only [cutting_result]
  split
  · exact le_refl _
  · exact le_of_not_lt (by assumption)

/-- C6: for every calculator input, the target spindle power equals the
rated power times the safety-margin factor times the
transmission-efficiency factor, and the material-removal-rate budget
equals that target power divided by the material's specific cutting
power. -/
theorem c6_power_budget :
    ∀ (machine : Machine) (tool : Tool) (mat : MaterialProps),
      (cutting_result machine tool mat).target_spindle_horsepower =
        machine.horsepower * machine_horsepower_multiplier *
          machine_efficiency ∧
      (cutting_result machine tool mat).MRR =
        (cutting_result machine tool mat).target_spindle_horsepower /
          mat.unit_power :=
  fun _ _ _ => ⟨rfl, rfl⟩

/-- C7: for fixed feed rate and removal-rate budget, stepover-% is
monotonically non-increasing in the axial depth: for strictly positive
depths a1 < a2 the stepover at a2 is at most the stepover at a1. -/
theorem c7_stepover_antitone :
    ∀ (MRR feed diameter a1 a2 : ℚ),
      0 ≤ MRR → 0 < feed → 0 < diameter → 0 < a1 → a1 < a2 →
      stepover MRR feed diameter a2 ≤ stepover MRR feed diameter a1 := by
  intro M f d a1 a2 hM hf hd h1 h12
  have h2 : 0 < a2 := lt_trans h1 h12
  unfold stepover doc_radial
  rw [div_div, div_div, div_div, div_div]
  have hda : f * (a1 * d) ≤ f * (a2 * d) :=
    mul_le_mul_of_nonneg_left
      (mul_le_mul_of_nonneg_right (le_of_lt h12) (le_of_lt hd))
      (le_of_lt hf)
  have key : M / (f * (a2 * d)) ≤ M / (f * (a1 * d)) := by
    rw [div_le_div_iff₀ (by positivity) (by positivity)]
    exact mul_le_mul_of_nonneg_left hda hM
  exact mul_le_mul_of_nonneg_left key (by norm_num)

/-- C7 witness: with unit budget, feed and diameter, the stepover at
depth 2 is at most the stepover at depth 1. -/
theorem c7_stepover_antitone_witness :
    stepover 1 1 1 2 ≤ stepover 1 1 1 1 :=
  c7_stepover_antitone 1 1 1 1 2 (by norm_num) (by norm_num) (by norm_num)
    (by norm_num) (by norm_num)

/-- C8: the spec claims the calculator fails with `InvalidToolGeometry`
when diameter ≤ 0 or tooth count ≤ 0 and with `InvalidMaterialSpec` when
specific cutting power ≤ 0, surfaced before any computation.  The code
performs no validation at all: with a −1-inch diameter it runs to
completion and returns a negative spindle speed, and with a negative
specific cutting power it returns a negative removal-rate budget. -/
theorem c8_no_validation_failure :
    (cutting_result sharp_lmv
      { diameter := -1, tooth_count := 4, material := "HSS/Cobalt" }
      aluminum).speed < 0 ∧
    (cutting_result sharp_lmv tool_075
      { SFM := 300, unit_power := -0.4 }).MRR < 0 := by
  constructor
  · have hneg : ideal_speed 300 (-1) < 0 := by
      unfold ideal_speed mathPi
      norm_num
    have hsfm : effective_SFM
        { diameter := -1, tooth_count := 4, material := "HSS/Cobalt" }
        aluminum.SFM = aluminum.SFM := by
      simp [effective_SFM]
    simp only [cutting_result, hsfm]
    show (if ideal_speed 300 (-1) > (3000 : ℚ) then (3000 : ℚ)
      else ideal_speed 300 (-1)) < 0
    have hc : ¬ (ideal_speed 300 (-1) > (3000 : ℚ)) := by
      rw [not_lt]
      exact le_trans (le_of_lt hneg) (by norm_num)
    rw [if_neg hc]
    exact hneg
  · show (3 : ℚ) * machine_horsepower_multiplier * machine_efficiency /
      (-0.4 : ℚ) < 0
    unfold machine_horsepower_multiplier machine_efficiency
    norm_num

/-- C9: the engine never clamps stepover-%: whenever the power budget
permits a radial depth exceeding the tool diameter the computed stepover
exceeds 100, and the Sharp LMV / 3/4-inch tool / Aluminum result indeed
contains a sample whose stepover exceeds 100%, emitted as computed. -/
theorem c9_stepover_unclamped :
    (∀ (MRR feed diameter a : ℚ),
      0 < feed → 0 < diameter → 0 < a →
      diameter < doc_radial MRR feed a →
      100 < stepover MRR feed diameter a) ∧
    ∃ p ∈ (cutting_result sharp_lmv tool_075 aluminum).samples,
      100 < p.2 := by
  constructor
  · intro M f d a hf hd ha hdr
    unfold stepover
    have h1 : 1 < doc_radial M f a / d := (one_lt_div hd).mpr hdr
    linarith
  · refine ⟨_, sample_mem sharp_lmv tool_075 aluminum 0.01
      point01_mem_doc_axial, ?_⟩
    show 100 < stepover (cutting_result sharp_lmv tool_075 aluminum).MRR
      (cutting_result sharp_lmv tool_075 aluminum).feed tool_075.diameter
      0.01
    rw [sharp_mrr_eq, sharp_feed_eq, ideal_speed_val]
    norm_num [stepover, doc_radial, tool_075]

/-- C9 witness: a removal-rate budget of 10 at unit feed, diameter and
depth yields a stepover above 100%. -/
theorem c9_stepover_unclamped_witness :
    100 < stepover 10 1 1 1 :=
  c9_stepover_unclamped.1 10 1 1 1 (by norm_num) (by norm_num) (by norm_num)
    (by norm_num [doc_radial])

/-- C10: with the Bridgeport's discrete gearbox the achieved spindle
speed (1750 rev/min) strictly exceeds the ideal speed (≈ 1528 rev/min),
so nearest-match resolution is not clamp-down-only, and the actual
cutting surface speed speed·π·d/12 exceeds the 300 ft/min surface-speed
limit the ideal speed was derived from. -/
theorem c10_discrete_can_exceed_ideal :
    (cutting_result bridgeport tool_075 aluminum).speed = 1750 ∧
    ideal_speed 300 (3 / 4) <
      (cutting_result bridgeport tool_075 aluminum).speed ∧
    300 < (cutting_result bridgeport tool_075 aluminum).speed *
      (mathPi * (3 / 4)) / 12 := by
  refine ⟨bp_speed_eq, ?_, ?_⟩
  · rw [bp_speed_eq, ideal_speed_val]
    norm_num
  · rw [bp_speed_eq]
    unfold mathPi
    norm_num
